import Mathlib

/-!
Shallow embedding of the CropperFinance AMM binary protocol layer
(`src/amm-instructions/amm_instruction.rs` and
`src/amm-instructions/amm_stats.rs`): the instruction codec, the
versioned pool-state codec and the `swap` call builder, together with
proofs of the codec laws.

Bytes are modelled as `Nat` (a byte is a value `< 256`); byte buffers as
`List Nat`; fallible Rust functions returning `Result<_, ProgramError>`
as `Except ProgramError _`.
-/

namespace Cropper

/-- The `ProgramError` values this layer can actually surface.
`ammInvalidInstruction` stands for `AmmError::InvalidInstruction.into()`
(the one custom error every failure path of `AmmInstruction::unpack` and
the length guards of `amm_stats.rs` convert into); `invalidAccountData`
and `uninitializedAccount` are the `solana_program` errors used by
`SwapVersion::unpack` and the `Pack` trait glue. -/
inductive ProgramError where
  | ammInvalidInstruction : ProgramError
  | invalidAccountData : ProgramError
  | uninitializedAccount : ProgramError
  deriving DecidableEq, Repr

/-- `u64::to_le_bytes` generalised: the `len` little-endian base-256 digits
of `n` (least significant first), as Rust produces them for `len = 8`. -/
def toLeBytes : Nat → Nat → List Nat
  | 0, _ => []
  | len + 1, n => n % 256 :: toLeBytes len (n / 256)

/-- `u64::from_le_bytes`: recombine little-endian base-256 digits. -/
def fromLeBytes : List Nat → Nat
  | [] => 0
  | b :: bs => b + 256 * fromLeBytes bs

/-- One more than `u64::MAX`: the size of the `u64` domain. -/
def u64Bound : Nat := 2 ^ 64

/-- `InitializeInstruction` (amm_instruction.rs line 22): the nonce byte. -/
structure InitializeInstruction where
  nonce : Nat
  deriving DecidableEq, Repr

/-- `SwapInstruction` (amm_instruction.rs line 31). -/
structure SwapInstruction where
  amount_in : Nat
  minimum_amount_out : Nat
  deriving DecidableEq, Repr

/-- `DepositInstruction` (amm_instruction.rs line 42). -/
structure DepositInstruction where
  pool_token_amount : Nat
  maximum_token_a_amount : Nat
  maximum_token_b_amount : Nat
  deriving DecidableEq, Repr

/-- `WithdrawInstruction` (amm_instruction.rs line 56). -/
structure WithdrawInstruction where
  pool_token_amount : Nat
  minimum_token_a_amount : Nat
  minimum_token_b_amount : Nat
  deriving DecidableEq, Repr

/-- `DepositSingleTokenTypeExactAmountIn` (amm_instruction.rs line 70). -/
structure DepositSingleTokenTypeExactAmountIn where
  source_token_amount : Nat
  minimum_pool_token_amount : Nat
  deriving DecidableEq, Repr

/-- `WithdrawSingleTokenTypeExactAmountOut` (amm_instruction.rs line 82). -/
structure WithdrawSingleTokenTypeExactAmountOut where
  destination_token_amount : Nat
  maximum_pool_token_amount : Nat
  deriving DecidableEq, Repr

/-- `AmmInstruction` (amm_instruction.rs line 93): the closed set of
instruction variants. -/
inductive AmmInstruction where
  | Initialize : InitializeInstruction → AmmInstruction
  | Swap : SwapInstruction → AmmInstruction
  | DepositAllTokenTypes : DepositInstruction → AmmInstruction
  | WithdrawAllTokenTypes : WithdrawInstruction → AmmInstruction
  | DepositSingleTokenTypeExactAmountIn :
      DepositSingleTokenTypeExactAmountIn → AmmInstruction
  | WithdrawSingleTokenTypeExactAmountOut :
      WithdrawSingleTokenTypeExactAmountOut → AmmInstruction
  deriving DecidableEq, Repr

/-- `AmmInstruction::unpack_u64` (amm_instruction.rs lines 255-267): if at
least 8 bytes remain, split off the first 8 and read them little-endian
(the inner `get(..8)`/`try_into` can never fail once the length check
passed); otherwise `AmmError::InvalidInstruction`. -/
def AmmInstruction.unpack_u64 (input : List Nat) :
    Except ProgramError (Nat × List Nat) :=
  if 8 ≤ input.length then
    .ok (fromLeBytes (input.take 8), input.drop 8)
  else
    .error .ammInvalidInstruction

/-- `AmmInstruction::unpack` (amm_instruction.rs lines 194-253): split the
tag byte, then dispatch exactly as the Rust `match tag` does.  Tag 0
demands the remainder be exactly the one nonce byte; tags 1-5 read their
fixed u64 fields and ignore whatever trails them; every failure is
`AmmError::InvalidInstruction`. -/
def AmmInstruction.unpack (input : List Nat) :
    Except ProgramError AmmInstruction :=
  match input with
  | [] => .error .ammInvalidInstruction
  | tag :: rest =>
    if tag = 0 then
      if rest.length = 1 then
        match rest with
        | nonce :: _ => .ok (.Initialize ⟨nonce⟩)
        | [] => .error .ammInvalidInstruction
      else
        .error .ammInvalidInstruction
    else if tag = 1 then
      match AmmInstruction.unpack_u64 rest with
      | .error e => .error e
      | .ok (amount_in, rest1) =>
        match AmmInstruction.unpack_u64 rest1 with
        | .error e => .error e
        | .ok (minimum_amount_out, _) =>
          .ok (.Swap ⟨amount_in, minimum_amount_out⟩)
    else if tag = 2 then
      match AmmInstruction.unpack_u64 rest with
      | .error e => .error e
      | .ok (pool_token_amount, rest1) =>
        match AmmInstruction.unpack_u64 rest1 with
        | .error e => .error e
        | .ok (maximum_token_a_amount, rest2) =>
          match AmmInstruction.unpack_u64 rest2 with
          | .error e => .error e
          | .ok (maximum_token_b_amount, _) =>
            .ok (.DepositAllTokenTypes
              ⟨pool_token_amount, maximum_token_a_amount,
                maximum_token_b_amount⟩)
    else if tag = 3 then
      match AmmInstruction.unpack_u64 rest with
      | .error e => .error e
      | .ok (pool_token_amount, rest1) =>
        match AmmInstruction.unpack_u64 rest1 with
        | .error e => .error e
        | .ok (minimum_token_a_amount, rest2) =>
          match AmmInstruction.unpack_u64 rest2 with
          | .error e => .error e
          | .ok (minimum_token_b_amount, _) =>
            .ok (.WithdrawAllTokenTypes
              ⟨pool_token_amount, minimum_token_a_amount,
                minimum_token_b_amount⟩)
    else if tag = 4 then
      match AmmInstruction.unpack_u64 rest with
      | .error e => .error e
      | .ok (source_token_amount, rest1) =>
        match AmmInstruction.unpack_u64 rest1 with
        | .error e => .error e
        | .ok (minimum_pool_token_amount, _) =>
          .ok (.DepositSingleTokenTypeExactAmountIn
            ⟨source_token_amount, minimum_pool_token_amount⟩)
    else if tag = 5 then
      match AmmInstruction.unpack_u64 rest with
      | .error e => .error e
      | .ok (destination_token_amount, rest1) =>
        match AmmInstruction.unpack_u64 rest1 with
        | .error e => .error e
        | .ok (maximum_pool_token_amount, _) =>
          .ok (.WithdrawSingleTokenTypeExactAmountOut
            ⟨destination_token_amount, maximum_pool_token_amount⟩)
    else
      .error .ammInvalidInstruction

/-- `AmmInstruction::pack` (amm_instruction.rs lines 270-327): the tag byte
followed by each field's `to_le_bytes`, in declared order. -/
def AmmInstruction.pack : AmmInstruction → List Nat
  | .Initialize i => [0, i.nonce]
  | .Swap i =>
      1 :: (toLeBytes 8 i.amount_in ++ toLeBytes 8 i.minimum_amount_out)
  | .DepositAllTokenTypes i =>
      2 :: (toLeBytes 8 i.pool_token_amount ++
        toLeBytes 8 i.maximum_token_a_amount ++
        toLeBytes 8 i.maximum_token_b_amount)
  | .WithdrawAllTokenTypes i =>
      3 :: (toLeBytes 8 i.pool_token_amount ++
        toLeBytes 8 i.minimum_token_a_amount ++
        toLeBytes 8 i.minimum_token_b_amount)
  | .DepositSingleTokenTypeExactAmountIn i =>
      4 :: (toLeBytes 8 i.source_token_amount ++
        toLeBytes 8 i.minimum_pool_token_amount)
  | .WithdrawSingleTokenTypeExactAmountOut i =>
      5 :: (toLeBytes 8 i.destination_token_amount ++
        toLeBytes 8 i.maximum_pool_token_amount)

/-- Domain of the Rust field types: every `u64` field is below `2 ^ 64`
and the `u8` nonce below `256`. -/
def AmmInstruction.wf : AmmInstruction → Prop
  | .Initialize i => i.nonce < 256
  | .Swap i => i.amount_in < u64Bound ∧ i.minimum_amount_out < u64Bound
  | .DepositAllTokenTypes i =>
      i.pool_token_amount < u64Bound ∧ i.maximum_token_a_amount < u64Bound ∧
        i.maximum_token_b_amount < u64Bound
  | .WithdrawAllTokenTypes i =>
      i.pool_token_amount < u64Bound ∧ i.minimum_token_a_amount < u64Bound ∧
        i.minimum_token_b_amount < u64Bound
  | .DepositSingleTokenTypeExactAmountIn i =>
      i.source_token_amount < u64Bound ∧ i.minimum_pool_token_amount < u64Bound
  | .WithdrawSingleTokenTypeExactAmountOut i =>
      i.destination_token_amount < u64Bound ∧
        i.maximum_pool_token_amount < u64Bound

instance (x : AmmInstruction) : Decidable (AmmInstruction.wf x) := by
  cases x <;> unfold AmmInstruction.wf <;> infer_instance

theorem toLeBytes_length (len n : Nat) : (toLeBytes len n).length = len := by
  induction len generalizing n with
  | zero => rfl
  | succ k ih => simp [toLeBytes, ih]

theorem fromLeBytes_toLeBytes (len n : Nat) (h : n < 256 ^ len) :
    fromLeBytes (toLeBytes len n) = n := by
  induction len generalizing n with
  | zero =>
    simp [toLeBytes, fromLeBytes]
    omega
  | succ k ih =>
    have hdiv : n / 256 < 256 ^ k := by
      rw [Nat.div_lt_iff_lt_mul (by omega)]
      calc n < 256 ^ (k + 1) := h
        _ = 256 ^ k * 256 := by rw [Nat.pow_succ]
    simp [toLeBytes, fromLeBytes, ih (n / 256) hdiv]
    omega

theorem unpack_u64_toLeBytes (n : Nat) (s : List Nat) (h : n < u64Bound) :
    AmmInstruction.unpack_u64 (toLeBytes 8 n ++ s) = .ok (n, s) := by
  have hlen : (toLeBytes 8 n).length = 8 := toLeBytes_length 8 n
  have h8 : 8 ≤ (toLeBytes 8 n ++ s).length := by
    rw [List.length_append, hlen]; omega
  have hval : n < 256 ^ 8 := by
    have : (256 : Nat) ^ 8 = 2 ^ 64 := by norm_num
    rw [this]; exact h
  simp [AmmInstruction.unpack_u64, h8, hlen, List.take_left' hlen,
    List.drop_left' hlen, fromLeBytes_toLeBytes 8 n hval]

theorem unpack_u64_toLeBytes_nil (n : Nat) (h : n < u64Bound) :
    AmmInstruction.unpack_u64 (toLeBytes 8 n) = .ok (n, []) := by
  simpa using unpack_u64_toLeBytes n [] h

theorem unpack_u64_short (l : List Nat) (h : l.length < 8) :
    AmmInstruction.unpack_u64 l = .error .ammInvalidInstruction := by
  rw [AmmInstruction.unpack_u64, if_neg (by omega)]

theorem unpack_u64_ok_of_le (l : List Nat) (h : 8 ≤ l.length) :
    AmmInstruction.unpack_u64 l = .ok (fromLeBytes (l.take 8), l.drop 8) := by
  rw [AmmInstruction.unpack_u64, if_pos h]

theorem unpack_u64_error_eq (l : List Nat) (e : ProgramError)
    (h : AmmInstruction.unpack_u64 l = .error e) :
    e = .ammInvalidInstruction := by
  by_cases h8 : 8 ≤ l.length
  · rw [AmmInstruction.unpack_u64, if_pos h8] at h
    cases h
  · rw [AmmInstruction.unpack_u64, if_neg h8] at h
    injection h with h'
    exact h'.symm

theorem unpack_tag0_ok (n : Nat) :
    AmmInstruction.unpack [0, n] = .ok (.Initialize ⟨n⟩) := by
  simp [AmmInstruction.unpack]

theorem unpack_tag1_ok (r : List Nat) (h : 16 ≤ r.length) :
    AmmInstruction.unpack (1 :: r) =
      .ok (.Swap ⟨fromLeBytes (r.take 8), fromLeBytes ((r.drop 8).take 8)⟩) := by
  simp [AmmInstruction.unpack, unpack_u64_ok_of_le r (by omega),
    unpack_u64_ok_of_le (r.drop 8) (by simp [List.length_drop]; omega)]

theorem unpack_tag1_short (r : List Nat) (h : r.length < 16) :
    AmmInstruction.unpack (1 :: r) = .error .ammInvalidInstruction := by
  by_cases h8 : r.length < 8
  · simp [AmmInstruction.unpack, unpack_u64_short r h8]
  · push_neg at h8
    simp [AmmInstruction.unpack, unpack_u64_ok_of_le r h8,
      unpack_u64_short (r.drop 8) (by simp [List.length_drop]; omega)]

theorem unpack_tag2_ok (r : List Nat) (h : 24 ≤ r.length) :
    AmmInstruction.unpack (2 :: r) =
      .ok (.DepositAllTokenTypes ⟨fromLeBytes (r.take 8),
        fromLeBytes ((r.drop 8).take 8), fromLeBytes ((r.drop 16).take 8)⟩) := by
  simp [AmmInstruction.unpack, unpack_u64_ok_of_le r (by omega),
    unpack_u64_ok_of_le (r.drop 8) (by simp [List.length_drop]; omega),
    unpack_u64_ok_of_le (r.drop 16) (by simp [List.length_drop]; omega)]

theorem unpack_tag2_short (r : List Nat) (h : r.length < 24) :
    AmmInstruction.unpack (2 :: r) = .error .ammInvalidInstruction := by
  by_cases h8 : r.length < 8
  · simp [AmmInstruction.unpack, unpack_u64_short r h8]
  · push_neg at h8
    by_cases h16 : r.length < 16
    · simp [AmmInstruction.unpack, unpack_u64_ok_of_le r h8,
        unpack_u64_short (r.drop 8) (by simp [List.length_drop]; omega)]
    · push_neg at h16
      simp [AmmInstruction.unpack, unpack_u64_ok_of_le r h8,
        unpack_u64_ok_of_le (r.drop 8) (by simp [List.length_drop]; omega),
        unpack_u64_short (r.drop 16) (by simp [List.length_drop]; omega)]

theorem unpack_tag3_ok (r : List Nat) (h : 24 ≤ r.length) :
    AmmInstruction.unpack (3 :: r) =
      .ok (.WithdrawAllTokenTypes ⟨fromLeBytes (r.take 8),
        fromLeBytes ((r.drop 8).take 8), fromLeBytes ((r.drop 16).take 8)⟩) := by
  simp [AmmInstruction.unpack, unpack_u64_ok_of_le r (by omega),
    unpack_u64_ok_of_le (r.drop 8) (by simp [List.length_drop]; omega),
    unpack_u64_ok_of_le (r.drop 16) (by simp [List.length_drop]; omega)]

theorem unpack_tag3_short (r : List Nat) (h : r.length < 24) :
    AmmInstruction.unpack (3 :: r) = .error .ammInvalidInstruction := by
  by_cases h8 : r.length < 8
  · simp [AmmInstruction.unpack, unpack_u64_short r h8]
  · push_neg at h8
    by_cases h16 : r.length < 16
    · simp [AmmInstruction.unpack, unpack_u64_ok_of_le r h8,
        unpack_u64_short (r.drop 8) (by simp [List.length_drop]; omega)]
    · push_neg at h16
      simp [AmmInstruction.unpack, unpack_u64_ok_of_le r h8,
        unpack_u64_ok_of_le (r.drop 8) (by simp [List.length_drop]; omega),
        unpack_u64_short (r.drop 16) (by simp [List.length_drop]; omega)]

theorem unpack_tag4_ok (r : List Nat) (h : 16 ≤ r.length) :
    AmmInstruction.unpack (4 :: r) =
      .ok (.DepositSingleTokenTypeExactAmountIn
        ⟨fromLeBytes (r.take 8), fromLeBytes ((r.drop 8).take 8)⟩) := by
  simp [AmmInstruction.unpack, unpack_u64_ok_of_le r (by omega),
    unpack_u64_ok_of_le (r.drop 8) (by simp [List.length_drop]; omega)]

theorem unpack_tag4_short (r : List Nat) (h : r.length < 16) :
    AmmInstruction.unpack (4 :: r) = .error .ammInvalidInstruction := by
  by_cases h8 : r.length < 8
  · simp [AmmInstruction.unpack, unpack_u64_short r h8]
  · push_neg at h8
    simp [AmmInstruction.unpack, unpack_u64_ok_of_le r h8,
      unpack_u64_short (r.drop 8) (by simp [List.length_drop]; omega)]

theorem unpack_tag5_ok (r : List Nat) (h : 16 ≤ r.length) :
    AmmInstruction.unpack (5 :: r) =
      .ok (.WithdrawSingleTokenTypeExactAmountOut
        ⟨fromLeBytes (r.take 8), fromLeBytes ((r.drop 8).take 8)⟩) := by
  simp [AmmInstruction.unpack, unpack_u64_ok_of_le r (by omega),
    unpack_u64_ok_of_le (r.drop 8) (by simp [List.length_drop]; omega)]

theorem unpack_tag5_short (r : List Nat) (h : r.length < 16) :
    AmmInstruction.unpack (5 :: r) = .error .ammInvalidInstruction := by
  by_cases h8 : r.length < 8
  · simp [AmmInstruction.unpack, unpack_u64_short r h8]
  · push_neg at h8
    simp [AmmInstruction.unpack, unpack_u64_ok_of_le r h8,
      unpack_u64_short (r.drop 8) (by simp [List.length_drop]; omega)]

theorem unpack_unknown_tag (tag : Nat) (r : List Nat) (h0 : tag ≠ 0)
    (h1 : tag ≠ 1) (h2 : tag ≠ 2) (h3 : tag ≠ 3) (h4 : tag ≠ 4)
    (h5 : tag ≠ 5) :
    AmmInstruction.unpack (tag :: r) = .error .ammInvalidInstruction := by
  simp [AmmInstruction.unpack, h0, h1, h2, h3, h4, h5]

/-- C1: for every instruction value of the six variants (with fields in
their Rust `u8`/`u64` domains), unpacking the bytes produced by `pack`
succeeds and yields the same instruction:
`AmmInstruction::unpack(AmmInstruction::pack(x)) == Ok(x)`. -/
theorem amm_C1_pack_unpack_roundtrip (x : AmmInstruction)
    (h : AmmInstruction.wf x) :
    AmmInstruction.unpack (AmmInstruction.pack x) = .ok x := by
  cases x with
  | Initialize i =>
    simp [AmmInstruction.pack, AmmInstruction.unpack]
  | Swap i =>
    obtain ⟨h1, h2⟩ := h
    simp [AmmInstruction.pack, AmmInstruction.unpack, List.append_assoc,
      unpack_u64_toLeBytes _ _ h1, unpack_u64_toLeBytes_nil _ h2]
  | DepositAllTokenTypes i =>
    obtain ⟨h1, h2, h3⟩ := h
    simp [AmmInstruction.pack, AmmInstruction.unpack, List.append_assoc,
      unpack_u64_toLeBytes _ _ h1, unpack_u64_toLeBytes _ _ h2,
      unpack_u64_toLeBytes_nil _ h3]
  | WithdrawAllTokenTypes i =>
    obtain ⟨h1, h2, h3⟩ := h
    simp [AmmInstruction.pack, AmmInstruction.unpack, List.append_assoc,
      unpack_u64_toLeBytes _ _ h1, unpack_u64_toLeBytes _ _ h2,
      unpack_u64_toLeBytes_nil _ h3]
  | DepositSingleTokenTypeExactAmountIn i =>
    obtain ⟨h1, h2⟩ := h
    simp [AmmInstruction.pack, AmmInstruction.unpack, List.append_assoc,
      unpack_u64_toLeBytes _ _ h1, unpack_u64_toLeBytes_nil _ h2]
  | WithdrawSingleTokenTypeExactAmountOut i =>
    obtain ⟨h1, h2⟩ := h
    simp [AmmInstruction.pack, AmmInstruction.unpack, List.append_assoc,
      unpack_u64_toLeBytes _ _ h1, unpack_u64_toLeBytes_nil _ h2]

/-- Witness for C1: the round trip evaluated at a concrete `Swap`. -/
theorem amm_C1_witness :
    AmmInstruction.wf (.Swap ⟨7, 9⟩) ∧
    AmmInstruction.unpack (AmmInstruction.pack (.Swap ⟨7, 9⟩)) =
      .ok (.Swap ⟨7, 9⟩) :=
  ⟨by decide, amm_C1_pack_unpack_roundtrip (.Swap ⟨7, 9⟩) (by decide)⟩

/-- C5: decoding discriminant 0 is strict about total length: `[0]` fails,
`[0, 5, 9]` fails, and any two-byte input `[0, n]` decodes to
`Initialize` with nonce `n`. -/
theorem amm_C5_initialize_strict (n : Nat) (h : n < 256) :
    AmmInstruction.unpack [0] = .error .ammInvalidInstruction ∧
    AmmInstruction.unpack [0, 5, 9] = .error .ammInvalidInstruction ∧
    AmmInstruction.unpack [0, n] = .ok (.Initialize ⟨n⟩) :=
  ⟨rfl, rfl, unpack_tag0_ok n⟩

/-- Witness for C5: evaluated at the concrete nonce 5. -/
theorem amm_C5_witness :
    (5 : Nat) < 256 ∧
    (AmmInstruction.unpack [0] = .error .ammInvalidInstruction ∧
      AmmInstruction.unpack [0, 5, 9] = .error .ammInvalidInstruction ∧
      AmmInstruction.unpack [0, 5] = .ok (.Initialize ⟨5⟩)) :=
  ⟨by decide, amm_C5_initialize_strict 5 (by decide)⟩

/-- C8: decoding any input whose first byte is a discriminant value of 6 or
more fails, whatever the remaining bytes are. -/
theorem amm_C8_unknown_discriminant (tag : Nat) (rest : List Nat)
    (h6 : 6 ≤ tag) (h256 : tag < 256) :
    AmmInstruction.unpack (tag :: rest) = .error .ammInvalidInstruction :=
  unpack_unknown_tag tag rest (by omega) (by omega) (by omega) (by omega)
    (by omega) (by omega)

/-- Witness for C8: evaluated at discriminant 6 with a nonempty payload. -/
theorem amm_C8_witness :
    (6 : Nat) ≤ 6 ∧ (6 : Nat) < 256 ∧
    AmmInstruction.unpack (6 :: [1, 2, 3]) = .error .ammInvalidInstruction :=
  ⟨by decide, by decide,
    amm_C8_unknown_discriminant 6 [1, 2, 3] (by decide) (by decide)⟩

/-- C9: `pack (Swap 1000000 990000)` is exactly the byte 1 followed by the
little-endian 8-byte encodings of 1000000 and 990000 (17 bytes in all),
and unpacking that exact sequence reproduces the instruction. -/
theorem amm_C9_swap_concrete :
    AmmInstruction.pack (.Swap ⟨1000000, 990000⟩) =
      [1, 64, 66, 15, 0, 0, 0, 0, 0, 48, 27, 15, 0, 0, 0, 0, 0] ∧
    [1, 64, 66, 15, 0, 0, 0, 0, 0, 48, 27, 15, 0, 0, 0, 0, 0] =
      1 :: (toLeBytes 8 1000000 ++ toLeBytes 8 990000) ∧
    (AmmInstruction.pack (.Swap ⟨1000000, 990000⟩)).length = 17 ∧
    AmmInstruction.unpack
        [1, 64, 66, 15, 0, 0, 0, 0, 0, 48, 27, 15, 0, 0, 0, 0, 0] =
      .ok (.Swap ⟨1000000, 990000⟩) := by
  refine ⟨rfl, rfl, rfl, rfl⟩

theorem unpack_tag0_bad_len (r : List Nat) (h : r.length ≠ 1) :
    AmmInstruction.unpack (0 :: r) = .error .ammInvalidInstruction := by
  simp [AmmInstruction.unpack, h]

/-- C6: a successful decode of a discriminant-1-to-5 encoding is untouched
by appending a suffix (the trailing bytes are ignored), while appending
any byte to a valid `Initialize` (discriminant 0) encoding makes the
decode fail. -/
theorem amm_C6_trailing_bytes (e s : List Nat) (x : AmmInstruction)
    (hx : AmmInstruction.unpack e = .ok x) :
    ((∀ i, x ≠ .Initialize i) → AmmInstruction.unpack (e ++ s) = .ok x) ∧
    (∀ i, x = .Initialize i → s ≠ [] →
      AmmInstruction.unpack (e ++ s) = .error .ammInvalidInstruction) := by
  cases e with
  | nil => exact absurd hx (by simp [AmmInstruction.unpack])
  | cons tag rest =>
    by_cases h0 : tag = 0
    · subst h0
      by_cases hl : rest.length = 1
      · rcases rest with _ | ⟨n, t⟩
        · simp at hl
        · rcases t with _ | ⟨m, t2⟩
          · rw [unpack_tag0_ok n] at hx
            injection hx with hx'
            subst hx'
            constructor
            · intro hni; exact absurd rfl (hni ⟨n⟩)
            · intro i _ hs
              apply unpack_tag0_bad_len
              rcases s with _ | ⟨b, t⟩
              · exact absurd rfl hs
              · intro hc
                simp [List.length_append] at hc
          · simp [List.length_cons] at hl
      · rw [unpack_tag0_bad_len rest hl] at hx
        exact Except.noConfusion hx
    · by_cases h1 : tag = 1
      · subst h1
        by_cases hr : 16 ≤ rest.length
        · rw [unpack_tag1_ok rest hr] at hx
          injection hx with hx'
          subst hx'
          refine ⟨fun _ => ?_, fun i hxi => absurd hxi (by simp)⟩
          rw [List.cons_append, unpack_tag1_ok (rest ++ s)
            (by simp [List.length_append]; omega)]
          rw [List.take_append_of_le_length (by omega),
            List.drop_append_of_le_length (by omega),
            List.take_append_of_le_length (by simp [List.length_drop]; omega)]
        · push_neg at hr
          rw [unpack_tag1_short rest hr] at hx
          exact Except.noConfusion hx
      · by_cases h2 : tag = 2
        · subst h2
          by_cases hr : 24 ≤ rest.length
          · rw [unpack_tag2_ok rest hr] at hx
            injection hx with hx'
            subst hx'
            refine ⟨fun _ => ?_, fun i hxi => absurd hxi (by simp)⟩
            rw [List.cons_append, unpack_tag2_ok (rest ++ s)
              (by simp [List.length_append]; omega)]
            rw [List.take_append_of_le_length (by omega),
              List.drop_append_of_le_length (by omega),
              List.drop_append_of_le_length (by omega),
              List.take_append_of_le_length (by simp [List.length_drop]; omega),
              List.take_append_of_le_length (by simp [List.length_drop]; omega)]
          · push_neg at hr
            rw [unpack_tag2_short rest hr] at hx
            exact Except.noConfusion hx
        · by_cases h3 : tag = 3
          · subst h3
            by_cases hr : 24 ≤ rest.length
            · rw [unpack_tag3_ok rest hr] at hx
              injection hx with hx'
              subst hx'
              refine ⟨fun _ => ?_, fun i hxi => absurd hxi (by simp)⟩
              rw [List.cons_append, unpack_tag3_ok (rest ++ s)
                (by simp [List.length_append]; omega)]
              rw [List.take_append_of_le_length (by omega),
                List.drop_append_of_le_length (by omega),
                List.drop_append_of_le_length (by omega),
                List.take_append_of_le_length
                  (by simp [List.length_drop]; omega),
                List.take_append_of_le_length
                  (by simp [List.length_drop]; omega)]
            · push_neg at hr
              rw [unpack_tag3_short rest hr] at hx
              exact Except.noConfusion hx
          · by_cases h4 : tag = 4
            · subst h4
              by_cases hr : 16 ≤ rest.length
              · rw [unpack_tag4_ok rest hr] at hx
                injection hx with hx'
                subst hx'
                refine ⟨fun _ => ?_, fun i hxi => absurd hxi (by simp)⟩
                rw [List.cons_append, unpack_tag4_ok (rest ++ s)
                  (by simp [List.length_append]; omega)]
                rw [List.take_append_of_le_length (by omega),
                  List.drop_append_of_le_length (by omega),
                  List.take_append_of_le_length
                    (by simp [List.length_drop]; omega)]
              · push_neg at hr
                rw [unpack_tag4_short rest hr] at hx
                exact Except.noConfusion hx
            · by_cases h5 : tag = 5
              · subst h5
                by_cases hr : 16 ≤ rest.length
                · rw [unpack_tag5_ok rest hr] at hx
                  injection hx with hx'
                  subst hx'
                  refine ⟨fun _ => ?_, fun i hxi => absurd hxi (by simp)⟩
                  rw [List.cons_append, unpack_tag5_ok (rest ++ s)
                    (by simp [List.length_append]; omega)]
                  rw [List.take_append_of_le_length (by omega),
                    List.drop_append_of_le_length (by omega),
                    List.take_append_of_le_length
                      (by simp [List.length_drop]; omega)]
                · push_neg at hr
                  rw [unpack_tag5_short rest hr] at hx
                  exact Except.noConfusion hx
              · rw [unpack_unknown_tag tag rest h0 h1 h2 h3 h4 h5] at hx
                exact Except.noConfusion hx

/-- Witness for C6: the `Swap` encoding `[1, 7, 0, ..., 0, 9, 0, ..., 0]`
still decodes to the same value after appending `[255]`. -/
theorem amm_C6_witness :
    AmmInstruction.unpack (AmmInstruction.pack (.Swap ⟨7, 9⟩)) =
      .ok (.Swap ⟨7, 9⟩) ∧
    ((∀ i, AmmInstruction.Swap ⟨7, 9⟩ ≠ .Initialize i) →
      AmmInstruction.unpack (AmmInstruction.pack (.Swap ⟨7, 9⟩) ++ [255]) =
        .ok (.Swap ⟨7, 9⟩)) ∧
    (∀ i, AmmInstruction.Swap ⟨7, 9⟩ = .Initialize i → [255] ≠ ([] : List Nat) →
      AmmInstruction.unpack (AmmInstruction.pack (.Swap ⟨7, 9⟩) ++ [255]) =
        .error .ammInvalidInstruction) :=
  ⟨rfl, (amm_C6_trailing_bytes (AmmInstruction.pack (.Swap ⟨7, 9⟩)) [255]
      (.Swap ⟨7, 9⟩) rfl).1,
    (amm_C6_trailing_bytes (AmmInstruction.pack (.Swap ⟨7, 9⟩)) [255]
      (.Swap ⟨7, 9⟩) rfl).2⟩

/-- C7: for every instruction value and every strict prefix of its
encoding, decoding the prefix returns an error (in this code base always
`AmmError::InvalidInstruction`); the decoder is a total function, so it
can neither panic nor read out of bounds. -/
theorem amm_C7_truncation_rejected (x : AmmInstruction) (n : Nat)
    (h : n < (AmmInstruction.pack x).length) :
    AmmInstruction.unpack ((AmmInstruction.pack x).take n) =
      .error .ammInvalidInstruction := by
  cases x with
  | Initialize i =>
    simp only [AmmInstruction.pack, List.length_cons, List.length_nil] at h
    interval_cases n
    · rfl
    · rfl
  | Swap i =>
    have hb : (toLeBytes 8 i.amount_in ++
        toLeBytes 8 i.minimum_amount_out).length = 16 := by
      simp [List.length_append, toLeBytes_length]
    simp only [AmmInstruction.pack, List.length_cons, hb] at h
    cases n with
    | zero => rfl
    | succ m =>
      simp only [AmmInstruction.pack, List.take_succ_cons]
      apply unpack_tag1_short
      rw [List.length_take, hb]
      omega
  | DepositAllTokenTypes i =>
    have hb : (toLeBytes 8 i.pool_token_amount ++
        toLeBytes 8 i.maximum_token_a_amount ++
        toLeBytes 8 i.maximum_token_b_amount).length = 24 := by
      simp [List.length_append, toLeBytes_length]
    simp only [AmmInstruction.pack, List.length_cons, hb] at h
    cases n with
    | zero => rfl
    | succ m =>
      simp only [AmmInstruction.pack, List.take_succ_cons]
      apply unpack_tag2_short
      rw [List.length_take, hb]
      omega
  | WithdrawAllTokenTypes i =>
    have hb : (toLeBytes 8 i.pool_token_amount ++
        toLeBytes 8 i.minimum_token_a_amount ++
        toLeBytes 8 i.minimum_token_b_amount).length = 24 := by
      simp [List.length_append, toLeBytes_length]
    simp only [AmmInstruction.pack, List.length_cons, hb] at h
    cases n with
    | zero => rfl
    | succ m =>
      simp only [AmmInstruction.pack, List.take_succ_cons]
      apply unpack_tag3_short
      rw [List.length_take, hb]
      omega
  | DepositSingleTokenTypeExactAmountIn i =>
    have hb : (toLeBytes 8 i.source_token_amount ++
        toLeBytes 8 i.minimum_pool_token_amount).length = 16 := by
      simp [List.length_append, toLeBytes_length]
    simp only [AmmInstruction.pack, List.length_cons, hb] at h
    cases n with
    | zero => rfl
    | succ m =>
      simp only [AmmInstruction.pack, List.take_succ_cons]
      apply unpack_tag4_short
      rw [List.length_take, hb]
      omega
  | WithdrawSingleTokenTypeExactAmountOut i =>
    have hb : (toLeBytes 8 i.destination_token_amount ++
        toLeBytes 8 i.maximum_pool_token_amount).length = 16 := by
      simp [List.length_append, toLeBytes_length]
    simp only [AmmInstruction.pack, List.length_cons, hb] at h
    cases n with
    | zero => rfl
    | succ m =>
      simp only [AmmInstruction.pack, List.take_succ_cons]
      apply unpack_tag5_short
      rw [List.length_take, hb]
      omega

/-- Witness for C7: the first 5 bytes of the encoding of a concrete `Swap`
(a u64 field cut short) are rejected. -/
theorem amm_C7_witness :
    5 < (AmmInstruction.pack (.Swap ⟨7, 9⟩)).length ∧
    AmmInstruction.unpack ((AmmInstruction.pack (.Swap ⟨7, 9⟩)).take 5) =
      .error .ammInvalidInstruction :=
  ⟨by decide, amm_C7_truncation_rejected (.Swap ⟨7, 9⟩) 5 (by decide)⟩

/-- C10: every failure of `AmmInstruction::unpack` — empty input, unknown
discriminant, a u64 field with fewer than 8 bytes left, or an
`Initialize` payload of the wrong length — returns one and the same error
value, `AmmError::InvalidInstruction` converted to `ProgramError`, so
callers cannot tell the failure modes apart. -/
theorem amm_C10_uniform_error (input : List Nat) (e : ProgramError)
    (h : AmmInstruction.unpack input = .error e) :
    e = .ammInvalidInstruction := by
  cases input with
  | nil =>
    simp [AmmInstruction.unpack] at h
    exact h.symm
  | cons tag rest =>
    by_cases h0 : tag = 0
    · subst h0
      by_cases hl : rest.length = 1
      · rcases rest with _ | ⟨n, t⟩
        · simp at hl
        · rcases t with _ | ⟨m, t2⟩
          · rw [unpack_tag0_ok n] at h
            exact Except.noConfusion h
          · simp [List.length_cons] at hl
      · rw [unpack_tag0_bad_len rest hl] at h
        injection h with h'
        exact h'.symm
    · by_cases h1 : tag = 1
      · subst h1
        by_cases hr : 16 ≤ rest.length
        · rw [unpack_tag1_ok rest hr] at h
          exact Except.noConfusion h
        · push_neg at hr
          rw [unpack_tag1_short rest hr] at h
          injection h with h'
          exact h'.symm
      · by_cases h2 : tag = 2
        · subst h2
          by_cases hr : 24 ≤ rest.length
          · rw [unpack_tag2_ok rest hr] at h
            exact Except.noConfusion h
          · push_neg at hr
            rw [unpack_tag2_short rest hr] at h
            injection h with h'
            exact h'.symm
        · by_cases h3 : tag = 3
          · subst h3
            by_cases hr : 24 ≤ rest.length
            · rw [unpack_tag3_ok rest hr] at h
              exact Except.noConfusion h
            · push_neg at hr
              rw [unpack_tag3_short rest hr] at h
              injection h with h'
              exact h'.symm
          · by_cases h4 : tag = 4
            · subst h4
              by_cases hr : 16 ≤ rest.length
              · rw [unpack_tag4_ok rest hr] at h
                exact Except.noConfusion h
              · push_neg at hr
                rw [unpack_tag4_short rest hr] at h
                injection h with h'
                exact h'.symm
            · by_cases h5 : tag = 5
              · subst h5
                by_cases hr : 16 ≤ rest.length
                · rw [unpack_tag5_ok rest hr] at h
                  exact Except.noConfusion h
                · push_neg at hr
                  rw [unpack_tag5_short rest hr] at h
                  injection h with h'
                  exact h'.symm
              · rw [unpack_unknown_tag tag rest h0 h1 h2 h3 h4 h5] at h
                injection h with h'
                exact h'.symm

/-- Witness for C10: the empty input fails and its error is the single
shared value. -/
theorem amm_C10_witness :
    AmmInstruction.unpack [] = .error .ammInvalidInstruction ∧
    ProgramError.ammInvalidInstruction = .ammInvalidInstruction :=
  ⟨rfl, amm_C10_uniform_error [] .ammInvalidInstruction rfl⟩

/-- A Solana `Pubkey`: 32 raw bytes, modelled as a byte list. -/
abbrev Pubkey := List Nat

/-- `SwapV1` (amm_stats.rs lines 193-228): the version-1 pool state record,
fields in the declared (and serialized) order. -/
structure SwapV1 where
  is_initialized : Bool
  nonce : Nat
  amm_id : Pubkey
  dex_program_id : Pubkey
  market_id : Pubkey
  token_program_id : Pubkey
  token_a : Pubkey
  token_b : Pubkey
  pool_mint : Pubkey
  token_a_mint : Pubkey
  token_b_mint : Pubkey
  deriving DecidableEq, Repr

/-- `SwapV1::LEN` (amm_stats.rs line 272). -/
def SwapV1.LEN : Nat := 290

/-- `AmmStatus::token_a_account` for `SwapV1` (amm_stats.rs line 243):
returns the `token_a` field. -/
def SwapV1.token_a_account (s : SwapV1) : Pubkey := s.token_a

/-- `AmmStatus::token_b_account` for `SwapV1` (amm_stats.rs line 247):
returns the `token_b` field. -/
def SwapV1.token_b_account (s : SwapV1) : Pubkey := s.token_b

/-- Shape constraints the Rust types carry: the nonce is a `u8` and every
`Pubkey` field holds exactly 32 bytes. -/
def SwapV1.wf (s : SwapV1) : Prop :=
  s.nonce < 256 ∧ s.amm_id.length = 32 ∧ s.dex_program_id.length = 32 ∧
    s.market_id.length = 32 ∧ s.token_program_id.length = 32 ∧
    s.token_a.length = 32 ∧ s.token_b.length = 32 ∧
    s.pool_mint.length = 32 ∧ s.token_a_mint.length = 32 ∧
    s.token_b_mint.length = 32

instance (s : SwapV1) : Decidable (SwapV1.wf s) := by
  unfold SwapV1.wf; infer_instance

/-- `SwapV1::pack_into_slice` (amm_stats.rs lines 274-300): the flag byte
(`is_initialized as u8`), the nonce byte, then the nine 32-byte keys, at
the offsets `mut_array_refs![output, 1, 1, 32, ..., 32]` assigns. -/
def SwapV1.pack_into_slice (s : SwapV1) : List Nat :=
  (if s.is_initialized then 1 else 0) :: s.nonce ::
    (s.amm_id ++ (s.dex_program_id ++ (s.market_id ++ (s.token_program_id ++
      (s.token_a ++ (s.token_b ++ (s.pool_mint ++ (s.token_a_mint ++
        s.token_b_mint))))))))

/-- The `is_initialized` flag byte match of the unpack functions
(amm_stats.rs lines 323-327): `[0]` is false, `[1]` is true, anything
else is rejected with `ProgramError::InvalidAccountData`. -/
def decodeBool : List Nat → Option Bool
  | [0] => some false
  | [1] => some true
  | _ => none

/-- `SwapV1::unpack_from_slice` (amm_stats.rs lines 303-339): inputs
shorter than 290 bytes are rejected with `AmmError::InvalidInstruction`;
then the eleven fields are read at the fixed offsets of
`array_refs![input, 1, 1, 32, ..., 32]` (sequential fixed-width splits),
and a flag byte other than 0/1 is rejected with `InvalidAccountData`.
Bytes past offset 290 are never read. -/
def SwapV1.unpack_from_slice (input : List Nat) :
    Except ProgramError SwapV1 :=
  if input.length < SwapV1.LEN then
    .error .ammInvalidInstruction
  else
    let r1 := input.drop 1
    let r2 := r1.drop 1
    let r3 := r2.drop 32
    let r4 := r3.drop 32
    let r5 := r4.drop 32
    let r6 := r5.drop 32
    let r7 := r6.drop 32
    let r8 := r7.drop 32
    let r9 := r8.drop 32
    let r10 := r9.drop 32
    match decodeBool (input.take 1) with
    | none => .error .invalidAccountData
    | some b =>
      .ok { is_initialized := b
            nonce := (r1.take 1).headD 0
            amm_id := r2.take 32
            dex_program_id := r3.take 32
            market_id := r4.take 32
            token_program_id := r5.take 32
            token_a := r6.take 32
            token_b := r7.take 32
            pool_mint := r8.take 32
            token_a_mint := r9.take 32
            token_b_mint := r10.take 32 }

/-- `Pack::unpack_unchecked` from `solana_program::program_pack`,
specialized to `SwapV1`: reject any input whose length is not exactly
`SwapV1::LEN` with `ProgramError::InvalidAccountData`, then delegate to
`unpack_from_slice`. -/
def SwapV1.unpack_unchecked (input : List Nat) :
    Except ProgramError SwapV1 :=
  if input.length ≠ SwapV1.LEN then
    .error .invalidAccountData
  else
    SwapV1.unpack_from_slice input

/-- `Pack::unpack` from `solana_program::program_pack`, specialized to
`SwapV1` (whose `IsInitialized` impl is at amm_stats.rs lines 265-269):
`unpack_unchecked`, then reject a record whose `is_initialized` flag is
false with `ProgramError::UninitializedAccount`. -/
def SwapV1.unpack (input : List Nat) : Except ProgramError SwapV1 :=
  match SwapV1.unpack_unchecked input with
  | .error e => .error e
  | .ok v => if v.is_initialized then .ok v else .error .uninitializedAccount

/-- `SwapVersion` (amm_stats.rs lines 37-40): the one-variant version enum. -/
inductive SwapVersion where
  | SwapV1 : SwapV1 → SwapVersion
  deriving DecidableEq, Repr

/-- `SwapVersion::LATEST_LEN` (amm_stats.rs line 47). -/
def SwapVersion.LATEST_LEN : Nat := 1 + SwapV1.LEN

/-- `SwapVersion::pack` (amm_stats.rs lines 50-57): write the version byte
1, then the `SwapV1` layout into the remaining 290 bytes. -/
def SwapVersion.pack : SwapVersion → List Nat
  | .SwapV1 swap_info => 1 :: SwapV1.pack_into_slice swap_info

/-- `SwapVersion::unpack` (amm_stats.rs lines 61-69): split the version
byte (`ProgramError::InvalidAccountData` when the input is empty);
version 1 dispatches to `SwapV1::unpack` (the `Pack` trait method), any
other version byte fails with `ProgramError::UninitializedAccount` — the
code's rendering of the spec's `UnsupportedVersion`.  The boxed
`AmmStatus` trait object the Rust returns can only hold a `SwapV1`, so
the model returns the record itself. -/
def SwapVersion.unpack (input : List Nat) :
    Except ProgramError Cropper.SwapV1 :=
  match input with
  | [] => .error .invalidAccountData
  | version :: rest =>
    if version = 1 then
      Cropper.SwapV1.unpack rest
    else
      .error .uninitializedAccount

theorem SwapV1.pack_length (x : SwapV1) (h : SwapV1.wf x) :
    (SwapV1.pack_into_slice x).length = 290 := by
  obtain ⟨hn, h1, h2, h3, h4, h5, h6, h7, h8, h9⟩ := h
  simp [SwapV1.pack_into_slice, List.length_append, h1, h2, h3, h4, h5,
    h6, h7, h8, h9]

theorem SwapV1.unpack_from_slice_pack (x : SwapV1) (h : SwapV1.wf x) :
    SwapV1.unpack_from_slice (SwapV1.pack_into_slice x) = .ok x := by
  obtain ⟨init, nn, amm, dex, mkt, tp, ta, tb, pm, tam, tbm⟩ := x
  obtain ⟨hn, h1, h2, h3, h4, h5, h6, h7, h8, h9⟩ := h
  have hlen := SwapV1.pack_length ⟨init, nn, amm, dex, mkt, tp, ta, tb,
    pm, tam, tbm⟩ ⟨hn, h1, h2, h3, h4, h5, h6, h7, h8, h9⟩
  rw [SwapV1.unpack_from_slice, if_neg (by rw [hlen]; simp [SwapV1.LEN])]
  cases init <;>
    simp [SwapV1.pack_into_slice, decodeBool,
      List.take_left' h1, List.drop_left' h1, List.take_left' h2,
      List.drop_left' h2, List.take_left' h3, List.drop_left' h3,
      List.take_left' h4, List.drop_left' h4, List.take_left' h5,
      List.drop_left' h5, List.take_left' h6, List.drop_left' h6,
      List.take_left' h7, List.drop_left' h7, List.take_left' h8,
      List.drop_left' h8, List.take_left' h9,
      List.take_of_length_le (Nat.le_of_eq h9)]

/-- A concrete, initialized pool record used to evaluate the versioned
codec at a specific input. -/
def testPool : SwapV1 :=
  { is_initialized := true
    nonce := 7
    amm_id := List.replicate 32 1
    dex_program_id := List.replicate 32 2
    market_id := List.replicate 32 3
    token_program_id := List.replicate 32 4
    token_a := List.replicate 32 5
    token_b := List.replicate 32 6
    pool_mint := List.replicate 32 10
    token_a_mint := List.replicate 32 8
    token_b_mint := List.replicate 32 9 }

/-- The same record with the `is_initialized` flag cleared. -/
def uninitializedPool : SwapV1 :=
  { testPool with is_initialized := false }

/-- C2 (amended): for every `SwapV1` record,
`unpack_from_slice (pack_into_slice x) = Ok(x)`; and whenever
`x.is_initialized` is set, the versioned wrapper round trip
`SwapVersion::unpack(SwapVersion::pack(SwapV1(x)))` succeeds and the
returned handle reports the same eight logical fields as `x`.  (For an
uninitialized record the versioned round trip fails, because
`SwapVersion::unpack` goes through `Pack::unpack`, which rejects a record
whose flag is clear — see the counterexample.) -/
theorem amm_C2_state_roundtrip (x : SwapV1) (h : SwapV1.wf x) :
    SwapV1.unpack_from_slice (SwapV1.pack_into_slice x) = .ok x ∧
    (x.is_initialized = true →
      SwapVersion.unpack (SwapVersion.pack (.SwapV1 x)) = .ok x ∧
      ∀ y, SwapVersion.unpack (SwapVersion.pack (.SwapV1 x)) = .ok y →
        y.is_initialized = x.is_initialized ∧ y.nonce = x.nonce ∧
          y.token_program_id = x.token_program_id ∧
          SwapV1.token_a_account y = SwapV1.token_a_account x ∧
          SwapV1.token_b_account y = SwapV1.token_b_account x ∧
          y.pool_mint = x.pool_mint ∧ y.token_a_mint = x.token_a_mint ∧
          y.token_b_mint = x.token_b_mint) := by
  have hrt := SwapV1.unpack_from_slice_pack x h
  refine ⟨hrt, fun hinit => ?_⟩
  have hver : SwapVersion.unpack (SwapVersion.pack (.SwapV1 x)) = .ok x := by
    have hlen := SwapV1.pack_length x h
    simp [SwapVersion.pack, SwapVersion.unpack, SwapV1.unpack,
      SwapV1.unpack_unchecked, SwapV1.LEN, hlen, hrt, hinit]
  refine ⟨hver, fun y hy => ?_⟩
  rw [hver] at hy
  injection hy with hy'
  subst hy'
  exact ⟨rfl, rfl, rfl, rfl, rfl, rfl, rfl, rfl⟩

/-- Counterexample for C2: for the record with the flag clear, the
versioned round trip does not succeed — `SwapVersion::unpack` fails with
`ProgramError::UninitializedAccount` even though the buffer came straight
from `SwapVersion::pack`. -/
theorem amm_C2_counterexample :
    SwapVersion.unpack (SwapVersion.pack (.SwapV1 uninitializedPool)) =
      .error .uninitializedAccount := by
  have hwf : SwapV1.wf uninitializedPool := by decide
  have hrt := SwapV1.unpack_from_slice_pack uninitializedPool hwf
  have hlen := SwapV1.pack_length uninitializedPool hwf
  have hflag : uninitializedPool.is_initialized = false := rfl
  simp [SwapVersion.pack, SwapVersion.unpack, SwapV1.unpack,
    SwapV1.unpack_unchecked, SwapV1.LEN, hlen, hrt, hflag]

/-- Witness for C2: the amended statement evaluated at the concrete
initialized record. -/
theorem amm_C2_witness :
    SwapV1.wf testPool ∧
    (SwapV1.unpack_from_slice (SwapV1.pack_into_slice testPool) =
        .ok testPool ∧
      (testPool.is_initialized = true →
        SwapVersion.unpack (SwapVersion.pack (.SwapV1 testPool)) =
          .ok testPool ∧
        ∀ y, SwapVersion.unpack (SwapVersion.pack (.SwapV1 testPool)) =
            .ok y →
          y.is_initialized = testPool.is_initialized ∧
            y.nonce = testPool.nonce ∧
            y.token_program_id = testPool.token_program_id ∧
            SwapV1.token_a_account y = SwapV1.token_a_account testPool ∧
            SwapV1.token_b_account y = SwapV1.token_b_account testPool ∧
            y.pool_mint = testPool.pool_mint ∧
            y.token_a_mint = testPool.token_a_mint ∧
            y.token_b_mint = testPool.token_b_mint)) :=
  ⟨by decide, amm_C2_state_roundtrip testPool (by decide)⟩

/-- C4: deserializing a versioned pool buffer whose first byte is anything
other than 1 fails with the version-gate error (rendered by the code as
`ProgramError::UninitializedAccount`), whatever the remaining bytes hold;
a first byte of 1 dispatches to the version-1 `SwapV1` layout. -/
theorem amm_C4_version_gate (v : Nat) (rest : List Nat) (hv : v ≠ 1) :
    SwapVersion.unpack (v :: rest) = .error .uninitializedAccount ∧
    ∀ r2 : List Nat, SwapVersion.unpack (1 :: r2) = SwapV1.unpack r2 := by
  constructor
  · simp [SwapVersion.unpack, hv]
  · intro r2
    simp [SwapVersion.unpack]

/-- Witness for C4: version byte 2 in front of a valid 290-byte pool
serialization is rejected. -/
theorem amm_C4_witness :
    (2 : Nat) ≠ 1 ∧
    (SwapVersion.unpack (2 :: SwapV1.pack_into_slice testPool) =
        .error .uninitializedAccount ∧
      ∀ r2 : List Nat, SwapVersion.unpack (1 :: r2) = SwapV1.unpack r2) :=
  ⟨by decide,
    amm_C4_version_gate 2 (SwapV1.pack_into_slice testPool) (by decide)⟩

/-- `solana_program::instruction::AccountMeta`: an account reference with
its signer and writability annotations. -/
structure AccountMeta where
  pubkey : Pubkey
  is_signer : Bool
  is_writable : Bool
  deriving DecidableEq, Repr

/-- `AccountMeta::new`: a writable account reference. -/
def AccountMeta.new (pubkey : Pubkey) (signer : Bool) : AccountMeta :=
  ⟨pubkey, signer, true⟩

/-- `AccountMeta::new_readonly`: a read-only account reference. -/
def AccountMeta.new_readonly (pubkey : Pubkey) (signer : Bool) :
    AccountMeta :=
  ⟨pubkey, signer, false⟩

/-- `solana_program::instruction::Instruction`: the dispatchable call the
builders assemble. -/
structure Instruction where
  program_id : Pubkey
  accounts : List AccountMeta
  data : List Nat
  deriving DecidableEq, Repr

/-- `swap` (amm_instruction.rs lines 526-567): the swap call builder, with
its account list exactly as the source writes it — note lines 547-548
mark both the user transfer authority and the state account as signers. -/
def swap (program_id token_program_id swap_pubkey authority_pubkey
    user_transfer_authority_pubkey state_pubkey source_pubkey
    swap_source_pubkey swap_destination_pubkey destination_pubkey
    pool_mint_pubkey fee_account_pubkey : Pubkey)
    (instruction : SwapInstruction) : Except ProgramError Instruction :=
  let data := (AmmInstruction.Swap instruction).pack
  .ok { program_id := program_id
        accounts := [
          AccountMeta.new_readonly swap_pubkey false,
          AccountMeta.new_readonly authority_pubkey false,
          AccountMeta.new_readonly user_transfer_authority_pubkey true,
          AccountMeta.new_readonly state_pubkey true,
          AccountMeta.new source_pubkey false,
          AccountMeta.new swap_source_pubkey false,
          AccountMeta.new swap_destination_pubkey false,
          AccountMeta.new destination_pubkey false,
          AccountMeta.new pool_mint_pubkey false,
          AccountMeta.new fee_account_pubkey false,
          AccountMeta.new_readonly token_program_id false ]
        data := data }

/-- A concrete 32-byte account identifier. -/
def samplePk (b : Nat) : Pubkey := List.replicate 32 b

/-- C3 (amended): for every set of account identifiers and every
`SwapInstruction` payload, the swap builder succeeds and produces a call
whose data field is the instruction's encoding and whose account list has
exactly 11 entries in the source's order, in which the
user-transfer-authority and the pool-registry state account are the two
accounts marked as signer and all other accounts are non-signer (the
four token accounts, the pool mint and the fee account are the writable
entries). -/
theorem amm_C3_swap_builder (program_id token_program_id swap_pubkey
    authority_pubkey user_transfer_authority_pubkey state_pubkey
    source_pubkey swap_source_pubkey swap_destination_pubkey
    destination_pubkey pool_mint_pubkey fee_account_pubkey : Pubkey)
    (instruction : SwapInstruction) :
    ∃ c, swap program_id token_program_id swap_pubkey authority_pubkey
        user_transfer_authority_pubkey state_pubkey source_pubkey
        swap_source_pubkey swap_destination_pubkey destination_pubkey
        pool_mint_pubkey fee_account_pubkey instruction = .ok c ∧
      c.data = (AmmInstruction.Swap instruction).pack ∧
      c.accounts.length = 11 ∧
      c.accounts.map AccountMeta.pubkey =
        [swap_pubkey, authority_pubkey, user_transfer_authority_pubkey,
          state_pubkey, source_pubkey, swap_source_pubkey,
          swap_destination_pubkey, destination_pubkey, pool_mint_pubkey,
          fee_account_pubkey, token_program_id] ∧
      c.accounts.map AccountMeta.is_signer =
        [false, false, true, true, false, false, false, false, false,
          false, false] ∧
      c.accounts.map AccountMeta.is_writable =
        [false, false, false, false, true, true, true, true, true, true,
          false] :=
  ⟨_, rfl, rfl, rfl, rfl, rfl, rfl⟩

/-- Counterexample for C3: with twelve distinct identifiers, the built
call marks an account other than the user-transfer-authority (the state
account, at position 3) as a signer, so "all other accounts are marked
non-signer" fails. -/
theorem amm_C3_counterexample :
    ∃ c, swap (samplePk 0) (samplePk 1) (samplePk 2) (samplePk 3)
        (samplePk 4) (samplePk 5) (samplePk 6) (samplePk 7) (samplePk 8)
        (samplePk 9) (samplePk 10) (samplePk 11) ⟨1, 2⟩ = .ok c ∧
      ¬ (∀ m ∈ c.accounts, m.is_signer = true → m.pubkey = samplePk 4) := by
  refine ⟨_, rfl, fun hall => ?_⟩
  have h5 := hall (AccountMeta.new_readonly (samplePk 5) true)
    (by simp) rfl
  rw [AccountMeta.new_readonly] at h5
  exact absurd h5 (by decide)
